import Mathlib

/-
Verification of the fs_minizip repository (src/fs_minizip/minizip.py): a shallow
embedding of the module-level `write_zip` archive writer, the `ZipFS` factory
switch, and the `WriteZipFS` writable-handle flush method, together with models
of the external collaborators they invoke (the pyfilesystem tree interface, its
`copy_dir_if_newer` merge utility and `ReadZipFS` opener, and the pyminizip
`compress_multiple` primitive).

Modelling conventions.  Byte strings are `List Nat`; per-entry modification
times are `Nat`.  A filesystem tree is an association list from slash-separated
path strings to file entries.  Python's dynamically typed arguments are
embedded as small sum types (`PyVal` for the `file`/`filename` argument that
may be a `str` or an open file object, `PwVal` for a password argument that may
be a byte string or some non-bytes value); `None` is `Option.none`.  Raising an
exception is returning `Except.error`; because `write_zip` is embedded as a
pure function from the pre-state (source tree, destination disk state) to an
`Except` result, an error return means no effect occurred at all — in
particular no compression call and no change to the destination file.
-/

namespace fs_minizip

/-- A file entry of an abstract tree: byte content plus a modification time. -/
structure FileEntry where
  content : List Nat
  mtime : Nat
  deriving Repr, DecidableEq

/-- An abstract filesystem tree: an association list from slash-separated path
strings to file entries (directories are implicit in the paths). -/
abbrev Tree : Type := List (String × FileEntry)

/-- The Python value passed as `file` / `filename`: either a `str` or an open
file object (any non-`str` object, numbered so distinct objects exist). -/
inductive PyVal where
  | str (s : String)
  | fileObj (n : Nat)
  deriving Repr, DecidableEq

/-- A non-`None` Python value passed as `password`: either a byte string or
some non-bytes value (carrying a description of what it was). -/
inductive PwVal where
  | bytes (b : List Nat)
  | nonBytes (descr : String)
  deriving Repr, DecidableEq

/-- Errors surfaced by the subsystem: the filesystem collaborator's
`CreateFailed` signal, Python `TypeError`, and any other collaborator error. -/
inductive FsError where
  | createFailed
  | typeError (msg : String)
  | otherError (msg : String)
  deriving Repr, DecidableEq

/-- State of the destination path on disk: absent, present but not a readable
zip container, a readable zip container with the given entries, or a file whose
opening as a zip raises a collaborator error other than `CreateFailed` (for
example a password failure while extracting). -/
inductive DiskFile where
  | absent
  | notZip
  | zip (entries : Tree)
  | zipOtherError (msg : String)
  deriving Repr, DecidableEq

/-- The `zipfile` module constant `ZIP_STORED`. -/
def ZIP_STORED : Nat := 0

/-- The `zipfile` module constant `ZIP_DEFLATED`. -/
def ZIP_DEFLATED : Nat := 8

/-- Look a path up in a tree (first matching entry). -/
def lookupFile : Tree → String → Option FileEntry
  | [], _ => none
  | (q, f) :: t, p => if q = p then some f else lookupFile t p

/-- Write an entry into a tree: replace the first entry at that path in place,
or append when the path is absent. -/
def setFile : Tree → String → FileEntry → Tree
  | [], p, e => [(p, e)]
  | (q, f) :: t, p, e => if q = p then (p, e) :: t else (q, f) :: setFile t p e

/-- Modelled from the spec: one step of the pyfilesystem collaborator's
`copy_dir_if_newer` utility (`fs.copy`, external to this repository) — copy a
single source file into the destination tree when it is missing there or the
destination copy has a strictly older modification time. -/
def copyFileIfNewer (dst : Tree) (p : String) (e : FileEntry) : Tree :=
  match lookupFile dst p with
  | none => setFile dst p e
  | some d => if d.mtime < e.mtime then setFile dst p e else dst

/-- Modelled from the spec: the pyfilesystem collaborator's `copy_dir_if_newer`
utility (external to this repository) — walk the source tree and copy each of
its files into the destination tree when missing or newer there. -/
def copy_dir_if_newer : Tree → Tree → Tree
  | [], dst => dst
  | (p, e) :: src, dst => copy_dir_if_newer src (copyFileIfNewer dst p e)

/-- Modelled from the spec: opening the destination path as a read-only zip
tree (`fs.zipfs.ReadZipFS`, external to this repository), which receives the
filename encoding and the password but whose success depends only on the disk
state.  A destination that does not exist or is not a valid archive signals
`CreateFailed`; other collaborator failures raise their own error. -/
def openAsZip (disk : DiskFile) (_encoding : String)
    (_password : Option (List Nat)) : Except FsError Tree :=
  match disk with
  | DiskFile.absent => Except.error FsError.createFailed
  | DiskFile.notZip => Except.error FsError.createFailed
  | DiskFile.zip t => Except.ok t
  | DiskFile.zipOtherError m => Except.error (FsError.otherError m)

/-- The `filename` type check at the top of `write_zip`:
`if not isinstance(filename, str): raise TypeError(...)`. -/
def checkFilename : PyVal → Except FsError String
  | PyVal.str s => Except.ok s
  | PyVal.fileObj _ => Except.error (FsError.typeError "expect str for filename, got file object")

/-- Modelled from the spec: the collaborator's `_password_type_check` — a
non-`None` password that is not a byte string fails with a type error.  This
embeds `if password is not None: zipfs._password_type_check(password)` and
returns the validated optional byte string. -/
def password_type_check : Option PwVal → Except FsError (Option (List Nat))
  | none => Except.ok none
  | some (PwVal.bytes b) => Except.ok (some b)
  | some (PwVal.nonBytes _) => Except.error (FsError.typeError "password must be bytes")

/-- The merge step of `write_zip`: `try: with ReadZipFS(filename, ...) as zip_:
copy_dir_if_newer(zip_, "/", src_fs, "/") except CreateFailed: pass`.  Only the
`CreateFailed` signal is swallowed; any other opening error propagates. -/
def mergeStep (srcFs : Tree) (disk : DiskFile) (encoding : String)
    (password : Option (List Nat)) : Except FsError Tree :=
  match openAsZip disk encoding password with
  | Except.ok zt => Except.ok (copy_dir_if_newer zt srcFs)
  | Except.error FsError.createFailed => Except.ok srcFs
  | Except.error e => Except.error e

/-- The directory part of a slash-separated path: the characters before the
last slash, or the empty string when there is none.  This is the walk prefix
recorded for each collected file. -/
def dirname (p : String) : String :=
  match List.dropWhile (fun c => !(c = '/')) p.toList.reverse with
  | [] => ""
  | _ :: rest => String.mk rest.reverse

/-- One invocation of the pyminizip collaborator's `compress_multiple`
primitive, recording exactly the arguments the code passes. -/
structure CompressCall where
  src_files : List String
  dest_prefixes : List String
  filename : String
  password : Option (List Nat)
  compression : Nat
  deriving Repr, DecidableEq

/-- The outcome of a `write_zip` call: the (possibly merged-into) source tree,
the destination disk state afterwards, and the compression call made, if any. -/
structure WZOut where
  srcFs : Tree
  disk : DiskFile
  call : Option CompressCall
  deriving Repr, DecidableEq

/-- The module-level `write_zip` of src/fs_minizip/minizip.py: check the
`filename` type, check the `password` type, merge an existing readable archive
into the source tree (swallowing only `CreateFailed`), walk the merged tree
collecting file paths and their directory prefixes, and call
`pyminizip.compress_multiple` once if and only if the collected list is
nonempty (a successful call rewrites the destination with the merged tree). -/
def write_zip (srcFs : Tree) (filename : PyVal) (compression : Nat)
    (encoding : String) (password : Option PwVal) (disk : DiskFile) :
    Except FsError WZOut :=
  match checkFilename filename with
  | Except.error e => Except.error e
  | Except.ok fname =>
    match password_type_check password with
    | Except.error e => Except.error e
    | Except.ok pw =>
      match mergeStep srcFs disk encoding pw with
      | Except.error e => Except.error e
      | Except.ok merged =>
        let src_files := merged.map (fun q => q.1)
        let dest_prefixes := merged.map (fun q => dirname q.1)
        if src_files.isEmpty then
          Except.ok ⟨merged, disk, none⟩
        else
          Except.ok ⟨merged, DiskFile.zip merged,
            some ⟨src_files, dest_prefixes, fname, pw, compression⟩⟩

/-- State of a `WriteZipFS` session: the configured destination, compression,
encoding, temporary backing tree, validated stored password, and whether the
session has been closed. -/
structure WriteZipFSState where
  _file : PyVal
  compression : Nat
  encoding : String
  _temp_fs : Tree
  _password : Option (List Nat)
  closed : Bool
  deriving Repr, DecidableEq

/-- `WriteZipFS.__init__`: validate the password type when supplied, then store
the configuration with a fresh (open) session. -/
def WriteZipFS.init (file : PyVal) (compression : Nat) (encoding : String)
    (temp_fs : Tree) (password : Option PwVal) : Except FsError WriteZipFSState :=
  match password_type_check password with
  | Except.error e => Except.error e
  | Except.ok pw => Except.ok ⟨file, compression, encoding, temp_fs, pw, false⟩

/-- Python truthiness of a `file` argument: the empty string is falsy, every
other string and every file object is truthy. -/
def PyVal.truthy : PyVal → Bool
  | PyVal.str s => !(s = "")
  | PyVal.fileObj _ => true

/-- Python truthiness of a non-`None` password argument: `b""` is falsy; a
nonempty byte string is truthy (non-bytes values are modelled as truthy). -/
def PwVal.truthy : PwVal → Bool
  | PwVal.bytes b => !b.isEmpty
  | PwVal.nonBytes _ => true

/-- Python's `x or default` for an optional argument: the default when the
argument is `None` or falsy, the argument itself otherwise. -/
def pyOr {α : Type} (truthy : α → Bool) : Option α → α → α
  | none, d => d
  | some v, d => if truthy v then v else d

/-- Python's `password or self._password`: the stored (already validated)
password when the per-call one is `None` or falsy. -/
def resolvePassword (password : Option PwVal) (stored : Option (List Nat)) :
    Option PwVal :=
  match password with
  | none => Option.map PwVal.bytes stored
  | some v => if PwVal.truthy v then some v else Option.map PwVal.bytes stored

/-- The four arguments `WriteZipFS.write_zip` hands to the module-level
`write_zip`. -/
structure FlushArgs where
  file : PyVal
  compression : Nat
  encoding : String
  password : Option PwVal
  deriving Repr, DecidableEq

/-- The argument resolution performed by `WriteZipFS.write_zip`:
`file or self._file`, `compression or self.compression`,
`encoding or self.encoding`, `password or self._password`. -/
def WriteZipFS.resolveArgs (self : WriteZipFSState) (file : Option PyVal)
    (compression : Option Nat) (encoding : Option String)
    (password : Option PwVal) : FlushArgs :=
  ⟨pyOr PyVal.truthy file self._file,
   pyOr (fun n => !(n = 0)) compression self.compression,
   pyOr (fun s => !(s = "")) encoding self.encoding,
   resolvePassword password self._password⟩

/-- The `WriteZipFS.write_zip` flush method: when the session is not closed,
invoke the module-level `write_zip` on the temporary backing tree with the
resolved arguments; when it is already closed, do nothing (the temporary tree,
the disk and the session state are returned unchanged with no compression
call). -/
def WriteZipFS.write_zip (self : WriteZipFSState) (disk : DiskFile)
    (file : Option PyVal) (compression : Option Nat) (encoding : Option String)
    (password : Option PwVal) : Except FsError WZOut :=
  if self.closed then
    Except.ok ⟨self._temp_fs, disk, none⟩
  else
    let a := WriteZipFS.resolveArgs self file compression encoding password
    fs_minizip.write_zip self._temp_fs a.file a.compression a.encoding a.password disk

/-- State of a `ReadZipFS` handle (delegated to the external library): the file
argument, the filename encoding, and the password, as passed through. -/
structure ReadZipFSState where
  file : PyVal
  encoding : String
  password : Option PwVal
  deriving Repr, DecidableEq

/-- The caller-visible result of the `ZipFS` construction entry point: either a
writable archive handle or a read-only archive view. -/
inductive FSHandle where
  | write (w : WriteZipFSState)
  | read (r : ReadZipFSState)
  deriving Repr, DecidableEq

/-- `ZipFS.__new__`: the factory switch.  With `write=True` it builds a
`WriteZipFS` from the file, compression, encoding, temp filesystem and
password; with `write=False` it builds a `ReadZipFS` from the file, encoding
and password. -/
def ZipFS.new (file : PyVal) (write : Bool) (compression : Nat)
    (encoding : String) (temp_fs : Tree) (password : Option PwVal) :
    Except FsError FSHandle :=
  if write then
    match WriteZipFS.init file compression encoding temp_fs password with
    | Except.error e => Except.error e
    | Except.ok w => Except.ok (FSHandle.write w)
  else
    Except.ok (FSHandle.read ⟨file, encoding, password⟩)

/-- Looking up a path just written by `setFile` finds the new entry; other
paths are unaffected. -/
theorem lookupFile_setFile (t : Tree) (p q : String) (e : FileEntry) :
    lookupFile (setFile t p e) q = if p = q then some e else lookupFile t q := by
  induction t with
  | nil =>
    by_cases h : p = q <;> simp [setFile, lookupFile, h]
  | cons hd tl ih =>
    obtain ⟨r, f⟩ := hd
    by_cases hrp : r = p
    · subst hrp
      by_cases h : r = q <;> simp [setFile, lookupFile, h]
    · simp only [setFile, if_neg hrp, lookupFile, ih]
      by_cases hrq : r = q <;> by_cases hpq : p = q <;> simp_all

/-- A copy-if-newer step for one path does not change lookups at other paths. -/
theorem lookupFile_copyFileIfNewer_ne (dst : Tree) (p q : String) (e : FileEntry)
    (h : ¬ p = q) :
    lookupFile (copyFileIfNewer dst p e) q = lookupFile dst q := by
  unfold copyFileIfNewer
  cases lookupFile dst p with
  | none => simp [lookupFile_setFile, h]
  | some d =>
    by_cases hm : d.mtime < e.mtime <;> simp [hm, lookupFile_setFile, h]

/-- A copy-if-newer step never removes a path from the destination tree. -/
theorem lookupFile_copyFileIfNewer_isSome (dst : Tree) (p q : String) (e : FileEntry)
    (h : (lookupFile dst q).isSome = true) :
    (lookupFile (copyFileIfNewer dst p e) q).isSome = true := by
  by_cases hpq : p = q
  · subst hpq
    unfold copyFileIfNewer
    cases hl : lookupFile dst p with
    | none => simp [lookupFile_setFile]
    | some d =>
      by_cases hm : d.mtime < e.mtime <;> simp [hm, lookupFile_setFile, hl]
  · rw [lookupFile_copyFileIfNewer_ne dst p q e hpq]
    exact h

/-- Merging a source tree none of whose paths is `p` does not change the
lookup of `p` in the destination. -/
theorem lookupFile_copy_dir_if_newer_not_mem (src : Tree) (dst : Tree) (p : String) :
    p ∉ src.map Prod.fst →
    lookupFile (copy_dir_if_newer src dst) p = lookupFile dst p := by
  induction src generalizing dst with
  | nil => intro _; rfl
  | cons hd tl ih =>
    obtain ⟨q, e⟩ := hd
    intro h
    simp only [List.map_cons, List.mem_cons, not_or] at h
    obtain ⟨hq, htl⟩ := h
    simp only [copy_dir_if_newer]
    rw [ih _ htl, lookupFile_copyFileIfNewer_ne dst q p e (fun hh => hq hh.symm)]

/-- Merging never removes a path from the destination tree. -/
theorem lookupFile_copy_dir_if_newer_isSome (src : Tree) (dst : Tree) (q : String) :
    (lookupFile dst q).isSome = true →
    (lookupFile (copy_dir_if_newer src dst) q).isSome = true := by
  induction src generalizing dst with
  | nil => intro h; exact h
  | cons hd tl ih =>
    obtain ⟨r, e⟩ := hd
    intro h
    exact ih _ (lookupFile_copyFileIfNewer_isSome dst r q e h)

/-- A successful lookup comes from an entry of the tree. -/
theorem mem_of_lookupFile (t : Tree) (p : String) (e : FileEntry) :
    lookupFile t p = some e → (p, e) ∈ t := by
  induction t with
  | nil => intro h; cases h
  | cons hd tl ih =>
    obtain ⟨q, f⟩ := hd
    intro h
    unfold lookupFile at h
    by_cases hqp : q = p
    · subst hqp
      rw [if_pos rfl] at h
      injection h with h
      subst h
      exact List.mem_cons_self _ _
    · rw [if_neg hqp] at h
      exact List.mem_cons_of_mem _ (ih h)

/-- The merged value at a path carried by the source tree (with no duplicate
source paths): the source entry when the destination copy is missing or
strictly older, the destination entry otherwise. -/
theorem lookupFile_copy_dir_if_newer_mem (src : Tree) (dst : Tree) (p : String)
    (e : FileEntry) :
    (src.map Prod.fst).Nodup → (p, e) ∈ src →
    lookupFile (copy_dir_if_newer src dst) p =
      match lookupFile dst p with
      | none => some e
      | some d => if d.mtime < e.mtime then some e else some d := by
  induction src generalizing dst with
  | nil => intro _ hmem; cases hmem
  | cons hd tl ih =>
    obtain ⟨q, f⟩ := hd
    intro hnd hmem
    simp only [List.map_cons, List.nodup_cons] at hnd
    obtain ⟨hq_not, hnd_tl⟩ := hnd
    rcases List.mem_cons.mp hmem with heq | htl
    · cases heq
      simp only [copy_dir_if_newer]
      rw [lookupFile_copy_dir_if_newer_not_mem tl _ p hq_not]
      unfold copyFileIfNewer
      cases hl : lookupFile dst p with
      | none => simp [lookupFile_setFile]
      | some d =>
        by_cases hm : d.mtime < e.mtime <;> simp [hm, lookupFile_setFile, hl]
    · have hp_in : p ∈ tl.map Prod.fst := List.mem_map_of_mem Prod.fst htl
      have hqp : ¬ q = p := fun h => hq_not (h ▸ hp_in)
      simp only [copy_dir_if_newer]
      rw [ih _ hnd_tl htl, lookupFile_copyFileIfNewer_ne dst q p f hqp]

/-- The password type check accepts exactly the byte-string (or absent)
passwords, returning them unchanged. -/
theorem password_type_check_bytes (pw : Option (List Nat)) :
    password_type_check (Option.map PwVal.bytes pw) = Except.ok pw := by
  cases pw <;> rfl

/-- C5: for every password argument that is not `None` and not a byte string,
`write_zip` raises a type error before any I/O occurs — the embedding returns
an error, so no merge, no compression call and no change to the destination
happen — regardless of the source tree, destination state, and whether the
filename argument itself is valid. -/
theorem write_zip_nonbytes_password_type_error (srcFs : Tree) (filename : PyVal)
    (c : Nat) (enc : String) (s : String) (disk : DiskFile) :
    ∃ msg, write_zip srcFs filename c enc (some (PwVal.nonBytes s)) disk
      = Except.error (FsError.typeError msg) := by
  cases filename with
  | str t => exact ⟨"password must be bytes", rfl⟩
  | fileObj n => exact ⟨"expect str for filename, got file object", rfl⟩

/-- C6: for every destination path argument that is not a string, `write_zip`
raises a type error before any I/O — in particular before the merge step, as
the error is returned for every destination disk state, readable archive or
not. -/
theorem write_zip_nonstr_filename_type_error (srcFs : Tree) (n : Nat) (c : Nat)
    (enc : String) (password : Option PwVal) (disk : DiskFile) :
    write_zip srcFs (PyVal.fileObj n) c enc password disk
      = Except.error (FsError.typeError "expect str for filename, got file object") := rfl

/-- C8: calling the flush method of an already-closed `WriteZipFS` session is
a no-op — the temporary tree and the destination disk state are returned
unchanged and no compression call is made. -/
theorem flush_after_close_is_noop (self : WriteZipFSState) (disk : DiskFile)
    (file : Option PyVal) (compression : Option Nat) (encoding : Option String)
    (password : Option PwVal) (h : self.closed = true) :
    WriteZipFS.write_zip self disk file compression encoding password
      = Except.ok ⟨self._temp_fs, disk, none⟩ := by
  unfold WriteZipFS.write_zip
  simp [h]

/-- Witness for C8 at a concrete closed session. -/
theorem flush_after_close_is_noop_witness :
    WriteZipFS.write_zip ⟨PyVal.str "o.zip", 8, "utf-8", [("a", ⟨[1], 0⟩)], none, true⟩
        DiskFile.absent none none none none
      = Except.ok ⟨[("a", ⟨[1], 0⟩)], DiskFile.absent, none⟩ :=
  flush_after_close_is_noop ⟨PyVal.str "o.zip", 8, "utf-8", [("a", ⟨[1], 0⟩)], none, true⟩
    DiskFile.absent none none none none rfl

/-- C10: a `WriteZipFS` whose configured destination is an open file object
(any non-string), flushed while open without a per-call file override, raises
the `TypeError` of the module-level `write_zip` and produces no archive (the
embedding returns an error, so no compression call and no disk change). -/
theorem flush_with_file_object_raises_type_error (n : Nat) (c : Nat) (enc : String)
    (temp_fs : Tree) (stored : Option (List Nat)) (disk : DiskFile)
    (compression : Option Nat) (encoding : Option String) (password : Option PwVal) :
    WriteZipFS.write_zip ⟨PyVal.fileObj n, c, enc, temp_fs, stored, false⟩ disk
        none compression encoding password
      = Except.error (FsError.typeError "expect str for filename, got file object") := rfl

/-- C2, counterexample: with a source tree containing zero files but a
destination that already names a readable archive with a file, `write_zip`
merges the archive's file into the source tree and then does perform a
compression call, rewriting the destination — contradicting the claim that an
empty source tree always means no archive-creation call and an untouched
destination. -/
theorem write_zip_empty_source_still_compresses :
    write_zip [] (PyVal.str "d.zip") 8 "utf-8" none (DiskFile.zip [("foo", ⟨[1], 0⟩)])
      = Except.ok ⟨[("foo", ⟨[1], 0⟩)], DiskFile.zip [("foo", ⟨[1], 0⟩)],
          some ⟨["foo"], [""], "d.zip", none, 8⟩⟩ := rfl

/-- C2, amended: for every call to `write_zip` where the source tree contains
zero files and the destination does not contribute merged files (it does not
exist, is not a readable archive, or is a readable archive with no entries),
no compression call is performed and the pre-existing destination file is left
untouched. -/
theorem write_zip_empty_merged_tree_skips_compression
    (fname : String) (c : Nat) (enc : String) (pw : Option (List Nat))
    (disk : DiskFile)
    (hdisk : openAsZip disk enc pw = Except.error FsError.createFailed ∨
      disk = DiskFile.zip []) :
    write_zip [] (PyVal.str fname) c enc (Option.map PwVal.bytes pw) disk
      = Except.ok ⟨[], disk, none⟩ := by
  unfold write_zip
  rcases hdisk with h | h
  · simp [checkFilename, password_type_check_bytes, mergeStep, h, copy_dir_if_newer]
  · subst h
    simp [checkFilename, password_type_check_bytes, mergeStep, openAsZip,
      copy_dir_if_newer]

/-- Witness for the amended C2 at a concrete absent destination. -/
theorem write_zip_empty_merged_tree_skips_compression_witness :
    write_zip [] (PyVal.str "d.zip") 8 "utf-8" none DiskFile.absent
      = Except.ok ⟨[], DiskFile.absent, none⟩ :=
  write_zip_empty_merged_tree_skips_compression "d.zip" 8 "utf-8" none
    DiskFile.absent (Or.inl rfl)

/-- C1: merge non-destructiveness of `write_zip`.  When the destination names
a readable zip archive (with no duplicate entry paths), a successful call
first copies into the source tree, via `copy_dir_if_newer`, every archive file
that is missing or strictly older in the source tree, and the final archive is
exactly the merged tree: any archive file `p` (such as `foo`) missing or stale
in the source tree appears in the final archive with its original entry, and
every path of the original source tree (such as `bar`) is still present. -/
theorem write_zip_merges_existing_archive
    (srcFs ztree : Tree) (fname : String) (comp : Nat) (enc : String)
    (pw : Option (List Nat))
    (hnd : (ztree.map Prod.fst).Nodup)
    (p : String) (e : FileEntry)
    (hz : lookupFile ztree p = some e)
    (hstale : lookupFile srcFs p = none ∨
      ∃ d, lookupFile srcFs p = some d ∧ d.mtime < e.mtime) :
    write_zip srcFs (PyVal.str fname) comp enc (Option.map PwVal.bytes pw)
        (DiskFile.zip ztree)
      = Except.ok ⟨copy_dir_if_newer ztree srcFs,
          DiskFile.zip (copy_dir_if_newer ztree srcFs),
          some ⟨(copy_dir_if_newer ztree srcFs).map (fun q => q.1),
                (copy_dir_if_newer ztree srcFs).map (fun q => dirname q.1),
                fname, pw, comp⟩⟩
    ∧ lookupFile (copy_dir_if_newer ztree srcFs) p = some e
    ∧ (∀ q f, lookupFile srcFs q = some f →
        (lookupFile (copy_dir_if_newer ztree srcFs) q).isSome = true) := by
  have hmem : (p, e) ∈ ztree := mem_of_lookupFile ztree p e hz
  have hmerged : lookupFile (copy_dir_if_newer ztree srcFs) p = some e := by
    rw [lookupFile_copy_dir_if_newer_mem ztree srcFs p e hnd hmem]
    rcases hstale with h | ⟨d, hd, hlt⟩
    · rw [h]
    · rw [hd]
      simp [hlt]
  refine ⟨?_, hmerged, ?_⟩
  · have hne : ((copy_dir_if_newer ztree srcFs).map (fun q => q.1)).isEmpty = false := by
      cases hcc : copy_dir_if_newer ztree srcFs with
      | nil => rw [hcc] at hmerged; cases hmerged
      | cons a t => rfl
    unfold write_zip
    simp only [checkFilename, password_type_check_bytes, mergeStep, openAsZip, hne,
      Bool.false_eq_true, if_false]
  · intro q f hq
    exact lookupFile_copy_dir_if_newer_isSome ztree srcFs q (by rw [hq]; rfl)

/-- Witness for C1: an existing archive holding `foo` with content
`"foo\x0a"`, a source tree holding only `bar`; the final archive holds both,
`foo` with its original entry. -/
theorem write_zip_merges_existing_archive_witness :
    write_zip [("bar", ⟨[104], 5⟩)] (PyVal.str "dest.zip") 8 "utf-8" none
        (DiskFile.zip [("foo", ⟨[102, 111, 111, 10], 3⟩)])
      = Except.ok ⟨[("bar", ⟨[104], 5⟩), ("foo", ⟨[102, 111, 111, 10], 3⟩)],
          DiskFile.zip [("bar", ⟨[104], 5⟩), ("foo", ⟨[102, 111, 111, 10], 3⟩)],
          some ⟨["bar", "foo"], ["", ""], "dest.zip", none, 8⟩⟩
    ∧ lookupFile [("bar", ⟨[104], 5⟩), ("foo", ⟨[102, 111, 111, 10], 3⟩)] "foo"
        = some ⟨[102, 111, 111, 10], 3⟩ :=
  ⟨(write_zip_merges_existing_archive [("bar", ⟨[104], 5⟩)]
      [("foo", ⟨[102, 111, 111, 10], 3⟩)] "dest.zip" 8 "utf-8" none (by decide)
      "foo" ⟨[102, 111, 111, 10], 3⟩ rfl (Or.inl rfl)).1,
   (write_zip_merges_existing_archive [("bar", ⟨[104], 5⟩)]
      [("foo", ⟨[102, 111, 111, 10], 3⟩)] "dest.zip" 8 "utf-8" none (by decide)
      "foo" ⟨[102, 111, 111, 10], 3⟩ rfl (Or.inl rfl)).2.1⟩

/-- C4, counterexample: `write_zip` does mutate the caller's source tree — a
call with an existing readable archive holding `foo` and a source tree holding
only `bar` returns with `foo` copied into the source tree. -/
theorem write_zip_mutates_source_tree :
    ∃ out : WZOut,
      write_zip [("bar", ⟨[98], 5⟩)] (PyVal.str "d.zip") 8 "utf-8" none
          (DiskFile.zip [("foo", ⟨[102, 111, 111, 10], 3⟩)])
        = Except.ok out
      ∧ out.srcFs ≠ [("bar", ⟨[98], 5⟩)] :=
  ⟨⟨[("bar", ⟨[98], 5⟩), ("foo", ⟨[102, 111, 111, 10], 3⟩)],
    DiskFile.zip [("bar", ⟨[98], 5⟩), ("foo", ⟨[102, 111, 111, 10], 3⟩)],
    some ⟨["bar", "foo"], ["", ""], "d.zip", none, 8⟩⟩, rfl, by decide⟩

/-- C4, amended: the source tree is read-only to `write_zip` except for the
reconciliation step.  On any successful call: if the destination did not name
a readable archive the source tree is returned unchanged; if it named a
readable archive the only mutation is `copy_dir_if_newer` from that archive;
and in every case no source-tree entry is removed. -/
theorem write_zip_source_mutation_only_by_merge
    (srcFs : Tree) (fname : String) (c : Nat) (enc : String) (pw : Option (List Nat))
    (disk : DiskFile) (out : WZOut)
    (h : write_zip srcFs (PyVal.str fname) c enc (Option.map PwVal.bytes pw) disk
      = Except.ok out) :
    (openAsZip disk enc pw = Except.error FsError.createFailed → out.srcFs = srcFs)
    ∧ (∀ zt, disk = DiskFile.zip zt → out.srcFs = copy_dir_if_newer zt srcFs)
    ∧ (∀ q f, lookupFile srcFs q = some f →
        (lookupFile out.srcFs q).isSome = true) := by
  unfold write_zip at h
  simp only [checkFilename, password_type_check_bytes] at h
  cases hm : mergeStep srcFs disk enc pw with
  | error e => simp only [hm] at h; exact Except.noConfusion h
  | ok merged =>
    simp only [hm] at h
    have hsrc : out.srcFs = merged := by
      by_cases he : (merged.map (fun q => q.1)).isEmpty = true
      · rw [if_pos he] at h
        injection h with h
        rw [← h]
      · rw [if_neg he] at h
        injection h with h
        rw [← h]
    refine ⟨?_, ?_, ?_⟩
    · intro hcf
      have hok : mergeStep srcFs disk enc pw = Except.ok srcFs := by
        unfold mergeStep
        rw [hcf]
      rw [hok] at hm
      injection hm with hm2
      rw [hsrc, ← hm2]
    · intro zt hzt
      subst hzt
      have hok : mergeStep srcFs (DiskFile.zip zt) enc pw
          = Except.ok (copy_dir_if_newer zt srcFs) := rfl
      rw [hok] at hm
      injection hm with hm2
      rw [hsrc, ← hm2]
    · intro q f hq
      rw [hsrc]
      cases disk with
      | absent =>
        have hok : mergeStep srcFs DiskFile.absent enc pw = Except.ok srcFs := rfl
        rw [hok] at hm
        injection hm with hm2
        rw [← hm2, hq]
        rfl
      | notZip =>
        have hok : mergeStep srcFs DiskFile.notZip enc pw = Except.ok srcFs := rfl
        rw [hok] at hm
        injection hm with hm2
        rw [← hm2, hq]
        rfl
      | zip zt =>
        have hok : mergeStep srcFs (DiskFile.zip zt) enc pw
            = Except.ok (copy_dir_if_newer zt srcFs) := rfl
        rw [hok] at hm
        injection hm with hm2
        rw [← hm2]
        exact lookupFile_copy_dir_if_newer_isSome zt srcFs q (by rw [hq]; rfl)
      | zipOtherError m =>
        have hok : mergeStep srcFs (DiskFile.zipOtherError m) enc pw
            = Except.error (FsError.otherError m) := rfl
        rw [hok] at hm
        exact Except.noConfusion hm

/-- Witness for the amended C4 at a concrete merging call. -/
theorem write_zip_source_mutation_only_by_merge_witness :
    (([("bar", ⟨[98], 5⟩), ("foo", ⟨[102, 111, 111, 10], 3⟩)] : Tree)
        = copy_dir_if_newer [("foo", ⟨[102, 111, 111, 10], 3⟩)] [("bar", ⟨[98], 5⟩)])
    ∧ (lookupFile [("bar", ⟨[98], 5⟩), ("foo", ⟨[102, 111, 111, 10], 3⟩)] "bar").isSome
        = true :=
  ⟨(write_zip_source_mutation_only_by_merge [("bar", ⟨[98], 5⟩)] "d.zip" 8 "utf-8"
      none (DiskFile.zip [("foo", ⟨[102, 111, 111, 10], 3⟩)])
      ⟨[("bar", ⟨[98], 5⟩), ("foo", ⟨[102, 111, 111, 10], 3⟩)],
       DiskFile.zip [("bar", ⟨[98], 5⟩), ("foo", ⟨[102, 111, 111, 10], 3⟩)],
       some ⟨["bar", "foo"], ["", ""], "d.zip", none, 8⟩⟩ rfl).2.1
      [("foo", ⟨[102, 111, 111, 10], 3⟩)] rfl,
   (write_zip_source_mutation_only_by_merge [("bar", ⟨[98], 5⟩)] "d.zip" 8 "utf-8"
      none (DiskFile.zip [("foo", ⟨[102, 111, 111, 10], 3⟩)])
      ⟨[("bar", ⟨[98], 5⟩), ("foo", ⟨[102, 111, 111, 10], 3⟩)],
       DiskFile.zip [("bar", ⟨[98], 5⟩), ("foo", ⟨[102, 111, 111, 10], 3⟩)],
       some ⟨["bar", "foo"], ["", ""], "d.zip", none, 8⟩⟩ rfl).2.2
      "bar" ⟨[98], 5⟩ rfl⟩

/-- C7: missing-archive tolerance.  For every destination state the filesystem
collaborator reports as `CreateFailed` (absent, or not a readable archive),
`write_zip` swallows the failure and proceeds without merging — it succeeds
and the source tree is untouched; any other collaborator error raised while
opening the destination propagates to the caller unchanged. -/
theorem write_zip_create_failed_swallowed_others_propagate
    (srcFs : Tree) (fname : String) (c : Nat) (enc : String) (pw : Option (List Nat)) :
    (∀ disk : DiskFile, openAsZip disk enc pw = Except.error FsError.createFailed →
      ∃ out : WZOut,
        write_zip srcFs (PyVal.str fname) c enc (Option.map PwVal.bytes pw) disk
          = Except.ok out ∧ out.srcFs = srcFs)
    ∧ (∀ m : String,
        write_zip srcFs (PyVal.str fname) c enc (Option.map PwVal.bytes pw)
            (DiskFile.zipOtherError m)
          = Except.error (FsError.otherError m)) := by
  constructor
  · intro disk hcf
    have hms : mergeStep srcFs disk enc pw = Except.ok srcFs := by
      unfold mergeStep
      rw [hcf]
    by_cases he : (srcFs.map (fun q => q.1)).isEmpty
    · refine ⟨⟨srcFs, disk, none⟩, ?_, rfl⟩
      unfold write_zip
      simp only [checkFilename, password_type_check_bytes, hms, he, if_true]
    · refine ⟨⟨srcFs, DiskFile.zip srcFs,
        some ⟨srcFs.map (fun q => q.1), srcFs.map (fun q => dirname q.1),
          fname, pw, c⟩⟩, ?_, rfl⟩
      unfold write_zip
      simp only [checkFilename, password_type_check_bytes, hms]
      rw [if_neg he]
  · intro m
    unfold write_zip
    simp only [checkFilename, password_type_check_bytes, mergeStep, openAsZip]

/-- Witness for C7: an absent destination is tolerated, while another opening
error propagates unchanged. -/
theorem write_zip_create_failed_swallowed_others_propagate_witness :
    (∃ out : WZOut,
      write_zip [("a", ⟨[1], 0⟩)] (PyVal.str "d.zip") 8 "utf-8" none DiskFile.absent
        = Except.ok out ∧ out.srcFs = [("a", ⟨[1], 0⟩)])
    ∧ write_zip [("a", ⟨[1], 0⟩)] (PyVal.str "d.zip") 8 "utf-8" none
        (DiskFile.zipOtherError "boom")
      = Except.error (FsError.otherError "boom") :=
  ⟨(write_zip_create_failed_swallowed_others_propagate [("a", ⟨[1], 0⟩)] "d.zip" 8
      "utf-8" none).1 DiskFile.absent rfl,
   (write_zip_create_failed_swallowed_others_propagate [("a", ⟨[1], 0⟩)] "d.zip" 8
      "utf-8" none).2 "boom"⟩

/-- C3, counterexample: a per-call compression value of `ZIP_STORED` (0) does
not override the configured value.  A session configured with `ZIP_DEFLATED`
(8), flushed with `compression=0`, invokes the compression primitive with 8 —
`compression or self.compression` discards the falsy 0. -/
theorem flush_zip_stored_does_not_override :
    WriteZipFS.write_zip ⟨PyVal.str "out.zip", 8, "utf-8", [("bar", ⟨[98], 1⟩)], none, false⟩
        DiskFile.absent none (some 0) none none
      = Except.ok ⟨[("bar", ⟨[98], 1⟩)], DiskFile.zip [("bar", ⟨[98], 1⟩)],
          some ⟨["bar"], [""], "out.zip", none, 8⟩⟩ := rfl

/-- C3, amended: flushing an open `WriteZipFS` session invokes the archive
writer against the temporary backing tree with the resolved destination file,
compression, encoding and password, and a per-call parameter overrides the
configured one exactly when it is truthy; falsy per-call values — `None`,
compression `ZIP_STORED` (0), an empty encoding string, an empty-bytes
password — fall back to the configured value. -/
theorem flush_overrides_truthy_per_call_args
    (self : WriteZipFSState) (disk : DiskFile) (file : Option PyVal)
    (compression : Option Nat) (encoding : Option String) (password : Option PwVal)
    (h : self.closed = false) :
    WriteZipFS.write_zip self disk file compression encoding password
      = write_zip self._temp_fs
          (WriteZipFS.resolveArgs self file compression encoding password).file
          (WriteZipFS.resolveArgs self file compression encoding password).compression
          (WriteZipFS.resolveArgs self file compression encoding password).encoding
          (WriteZipFS.resolveArgs self file compression encoding password).password disk
    ∧ (∀ v, file = some v → PyVal.truthy v = true →
        (WriteZipFS.resolveArgs self file compression encoding password).file = v)
    ∧ (∀ n, compression = some n → ¬ n = 0 →
        (WriteZipFS.resolveArgs self file compression encoding password).compression = n)
    ∧ (∀ s, encoding = some s → ¬ s = "" →
        (WriteZipFS.resolveArgs self file compression encoding password).encoding = s)
    ∧ (∀ v, password = some v → PwVal.truthy v = true →
        (WriteZipFS.resolveArgs self file compression encoding password).password
          = some v)
    ∧ (compression = some ZIP_STORED →
        (WriteZipFS.resolveArgs self file compression encoding password).compression
          = self.compression)
    ∧ (password = some (PwVal.bytes []) →
        (WriteZipFS.resolveArgs self file compression encoding password).password
          = Option.map PwVal.bytes self._password) := by
  refine ⟨?_, ?_, ?_, ?_, ?_, ?_, ?_⟩
  · unfold WriteZipFS.write_zip
    rw [if_neg (by rw [h]; exact Bool.false_ne_true)]
  · intro v hv htr
    subst hv
    simp [WriteZipFS.resolveArgs, pyOr, htr]
  · intro n hn hne
    subst hn
    simp [WriteZipFS.resolveArgs, pyOr, hne]
  · intro s hs hne
    subst hs
    simp [WriteZipFS.resolveArgs, pyOr, hne]
  · intro v hv htr
    subst hv
    simp [WriteZipFS.resolveArgs, resolvePassword, htr]
  · intro hc
    subst hc
    simp [WriteZipFS.resolveArgs, pyOr, ZIP_STORED]
  · intro hp
    subst hp
    simp [WriteZipFS.resolveArgs, resolvePassword, PwVal.truthy]

/-- Witness for the amended C3: a session configured with destination
`o.zip`, compression 8, encoding `utf-8` and stored password `b"1"`, flushed
with a truthy file `new.zip`, falsy compression 0, truthy encoding `cp437`,
and falsy password `b""`: the truthy arguments override, the falsy ones fall
back to the configured values. -/
theorem flush_overrides_truthy_per_call_args_witness :
    (WriteZipFS.resolveArgs ⟨PyVal.str "o.zip", 8, "utf-8", [], some [49], false⟩
        (some (PyVal.str "new.zip")) (some 0) (some "cp437")
        (some (PwVal.bytes []))).file = PyVal.str "new.zip"
    ∧ (WriteZipFS.resolveArgs ⟨PyVal.str "o.zip", 8, "utf-8", [], some [49], false⟩
        (some (PyVal.str "new.zip")) (some 0) (some "cp437")
        (some (PwVal.bytes []))).encoding = "cp437"
    ∧ (WriteZipFS.resolveArgs ⟨PyVal.str "o.zip", 8, "utf-8", [], some [49], false⟩
        (some (PyVal.str "new.zip")) (some 0) (some "cp437")
        (some (PwVal.bytes []))).compression = 8
    ∧ (WriteZipFS.resolveArgs ⟨PyVal.str "o.zip", 8, "utf-8", [], some [49], false⟩
        (some (PyVal.str "new.zip")) (some 0) (some "cp437")
        (some (PwVal.bytes []))).password = some (PwVal.bytes [49]) :=
  ⟨(flush_overrides_truthy_per_call_args
      ⟨PyVal.str "o.zip", 8, "utf-8", [], some [49], false⟩ DiskFile.absent
      (some (PyVal.str "new.zip")) (some 0) (some "cp437") (some (PwVal.bytes []))
      rfl).2.1 (PyVal.str "new.zip") rfl rfl,
   (flush_overrides_truthy_per_call_args
      ⟨PyVal.str "o.zip", 8, "utf-8", [], some [49], false⟩ DiskFile.absent
      (some (PyVal.str "new.zip")) (some 0) (some "cp437") (some (PwVal.bytes []))
      rfl).2.2.2.1 "cp437" rfl (by decide),
   (flush_overrides_truthy_per_call_args
      ⟨PyVal.str "o.zip", 8, "utf-8", [], some [49], false⟩ DiskFile.absent
      (some (PyVal.str "new.zip")) (some 0) (some "cp437") (some (PwVal.bytes []))
      rfl).2.2.2.2.2.1 rfl,
   (flush_overrides_truthy_per_call_args
      ⟨PyVal.str "o.zip", 8, "utf-8", [], some [49], false⟩ DiskFile.absent
      (some (PyVal.str "new.zip")) (some 0) (some "cp437") (some (PwVal.bytes []))
      rfl).2.2.2.2.2.2 rfl⟩

/-- C9: the `ZipFS` construction entry point is a factory switch.  With
`write = true` every successfully returned handle is a fresh `WriteZipFS`
carrying the given file, compression, encoding, temp filesystem and password;
with `write = false` it returns the `ReadZipFS` view carrying the given file,
encoding and password; `FSHandle` has no third alternative. -/
theorem zipfs_factory_switch (file : PyVal) (c : Nat) (enc : String)
    (temp_fs : Tree) (password : Option PwVal) :
    (∀ h : FSHandle, ZipFS.new file true c enc temp_fs password = Except.ok h →
      ∃ w : WriteZipFSState, h = FSHandle.write w ∧ w._file = file
        ∧ w.compression = c ∧ w.encoding = enc ∧ w._temp_fs = temp_fs
        ∧ w.closed = false
        ∧ (∀ b, password = some (PwVal.bytes b) → w._password = some b))
    ∧ ZipFS.new file false c enc temp_fs password
        = Except.ok (FSHandle.read ⟨file, enc, password⟩) := by
  constructor
  · intro h hh
    cases password with
    | none =>
      have he : ZipFS.new file true c enc temp_fs none
          = Except.ok (FSHandle.write ⟨file, c, enc, temp_fs, none, false⟩) := rfl
      rw [he] at hh
      injection hh with hh
      exact ⟨⟨file, c, enc, temp_fs, none, false⟩, hh.symm, rfl, rfl, rfl, rfl, rfl,
        fun b hb => Option.noConfusion hb⟩
    | some v =>
      cases v with
      | bytes b0 =>
        have he : ZipFS.new file true c enc temp_fs (some (PwVal.bytes b0))
            = Except.ok (FSHandle.write ⟨file, c, enc, temp_fs, some b0, false⟩) := rfl
        rw [he] at hh
        injection hh with hh
        refine ⟨⟨file, c, enc, temp_fs, some b0, false⟩, hh.symm, rfl, rfl, rfl, rfl, rfl,
          fun b hb => ?_⟩
        injection hb with hb
        injection hb with hb
        rw [hb]
      | nonBytes s =>
        have he : ZipFS.new file true c enc temp_fs (some (PwVal.nonBytes s))
            = Except.error (FsError.typeError "password must be bytes") := rfl
        rw [he] at hh
        exact Except.noConfusion hh
  · rfl

/-- Witness for C9 at a concrete file, password and configuration. -/
theorem zipfs_factory_switch_witness :
    (∃ w : WriteZipFSState,
        FSHandle.write ⟨PyVal.str "a.zip", 8, "utf-8", [], some [49], false⟩
          = FSHandle.write w
        ∧ w._file = PyVal.str "a.zip" ∧ w.compression = 8 ∧ w.encoding = "utf-8"
        ∧ w._temp_fs = [] ∧ w.closed = false
        ∧ (∀ b, (some (PwVal.bytes [49]) : Option PwVal) = some (PwVal.bytes b) →
            w._password = some b))
    ∧ ZipFS.new (PyVal.str "a.zip") false 8 "utf-8" [] (some (PwVal.bytes [49]))
        = Except.ok (FSHandle.read ⟨PyVal.str "a.zip", "utf-8", some (PwVal.bytes [49])⟩) :=
  ⟨(zipfs_factory_switch (PyVal.str "a.zip") 8 "utf-8" [] (some (PwVal.bytes [49]))).1
      (FSHandle.write ⟨PyVal.str "a.zip", 8, "utf-8", [], some [49], false⟩) rfl,
   (zipfs_factory_switch (PyVal.str "a.zip") 8 "utf-8" [] (some (PwVal.bytes [49]))).2⟩

end fs_minizip
